import Mathlib

/-!
Verification of the State Toggle action module (src/__init__.py).

The development shallowly embeds the module's core in Lean:

* `Action` models the `StateToggle` action-data object: its `chain_states`
  list of key combinations and its `num_states` counter
  (`StateToggle.__init__`).
* `StateToggleFunctor.init` models `StateToggleFunctor.__init__`: it walks
  `range(0, action.num_states)`, indexing `action.chain_states[i]` (which can
  fail, hence `Option`), and precompiles the per-state press and release
  macros plus the always-true auto-release flags.
* `process_event` models `StateToggleFunctor.process_event`. External side
  effects are made explicit state: the macro execution queue
  (`gremlin.macro.MacroManager().queue_macro`) becomes the `queue` list of the
  `EngineState`, and `ButtonReleaseActions().register_callback` becomes the
  `registered` counter. Python runtime errors (list index out of range,
  modulo by zero) are modelled by returning `none`.
* `states_changed_cb` models `StateToggleWidget._states_changed_cb`, the
  resize callback; Python's `list.pop()` on an empty list raises, hence
  `Option` again.
* `generate_xml` / `parse_xml` model `StateToggle._generate_xml` and
  `StateToggle._parse_xml`; the XML fragment is modelled by its abstract
  shape (a list of state elements, each a list of key elements carrying the
  two attribute strings). Python's `str`/`int` on non-negative integers are
  modelled by `pyStrNat`/`pyIntNat?`.
-/

namespace StateToggle

/-- A key identifier as stored in `chain_states`: `(scan_code, is_extended)`. -/
abbrev KeyId := Nat × Bool

/-- A key combination: one state's ordered list of keys. -/
abbrev KeyCombination := List KeyId

/-- The `MAX_STATES` constant set in `StateToggle.__init__`. -/
def MAX_STATES : Nat := 10

/-- The `StateToggle` action data: the `chain_states` list and the
`num_states` counter (fields created in `StateToggle.__init__`). -/
structure Action where
  chain_states : List KeyCombination
  num_states : Nat
deriving DecidableEq

/-- A freshly constructed action: `chain_states = []`, `num_states = 0`
(`StateToggle.__init__`). -/
def freshAction : Action := ⟨[], 0⟩

/-- Models `StateToggle._is_valid`: `len(self.chain_states) > 0`. -/
def is_valid (a : Action) : Bool := a.chain_states.length > 0

/-- One primitive of a keyboard macro. `gremlin.macro.Macro` is external to
this module; a macro built by the functor is a sequence of press/release
primitives, and `gremlin.macro.key_from_code(scan_code, extended)` is an
injective resolver modelled as the identity on the `(scan_code, extended)`
pair. -/
inductive KeyEvent where
  | press (key : KeyId)
  | release (key : KeyId)
deriving DecidableEq

/-- A keyboard macro as built by the functor: a list of press/release
primitives. -/
abbrev KeySeq := List KeyEvent

/-- The runtime engine state created by `StateToggleFunctor.__init__`:
precompiled press/release macros, the auto-release flags, `num_states` and
the `current_toggle` cursor. -/
structure StateToggleFunctor where
  press : List KeySeq
  needs_auto_release : List Bool
  release : List KeySeq
  num_states : Nat
  current_toggle : Nat
deriving DecidableEq

/-- Models `StateToggleFunctor.__init__`: for each `i` in
`range(0, action.num_states)` read `action.chain_states[i]` (an out-of-range
index raises, hence `Option`), build the press macro and the release macro
from its keys in order, and record the unconditional auto-release flag.
`current_toggle` starts at 0. There is no check on `action.num_states`. -/
def StateToggleFunctor.init (action : Action) : Option StateToggleFunctor := do
  let combos ← (List.range action.num_states).mapM (fun i => action.chain_states[i]?)
  some { press := combos.map (fun c => c.map KeyEvent.press)
         needs_auto_release := combos.map (fun _ => true)
         release := combos.map (fun c => c.map KeyEvent.release)
         num_states := action.num_states
         current_toggle := 0 }

/-- The engine together with its observable external effects: the macros
handed to `MacroManager().queue_macro` in order, and the number of
`ButtonReleaseActions().register_callback` registrations made. -/
structure EngineState where
  functor : StateToggleFunctor
  queue : List KeySeq
  registered : Nat
deriving DecidableEq

/-- Models `StateToggleFunctor.process_event`. On `value.current` true:
enqueue `press[current_toggle]`, and if `needs_auto_release[current_toggle]`
register an auto-release callback; the cursor is untouched. Otherwise:
enqueue `release[current_toggle]` and advance
`current_toggle = (current_toggle + 1) % num_states`. Returns `True`.
A Python list index out of range or a modulo by zero raises, modelled by
`none`. -/
def process_event (s : EngineState) (current : Bool) : Option (EngineState × Bool) :=
  if current then do
    let m ← s.functor.press[s.functor.current_toggle]?
    let auto ← s.functor.needs_auto_release[s.functor.current_toggle]?
    some ({ s with
            queue := s.queue ++ [m]
            registered := if auto then s.registered + 1 else s.registered }, true)
  else do
    let m ← s.functor.release[s.functor.current_toggle]?
    if s.functor.num_states = 0 then
      none
    else
      some ({ s with
              queue := s.queue ++ [m]
              functor := { s.functor with
                current_toggle := (s.functor.current_toggle + 1) % s.functor.num_states } },
            true)

/-- Runs a sequence of events through `process_event`, threading the engine
state and aborting on a raised error. An event is its `value.current` flag. -/
def runEvents (s : EngineState) (events : List Bool) : Option EngineState :=
  events.foldlM (fun st e => (process_event st e).map Prod.fst) s

/-- The alternating event sequence of the cycling property: `n` pairs of an
activation followed by a deactivation, i.e. `2*n` events starting with an
activation. -/
def alternating : Nat → List Bool
  | 0 => []
  | n + 1 => true :: false :: alternating n

/-- The structural invariant of a constructed engine: the three precompiled
lists all have length `num_states` and the cursor is in range. -/
def WF (f : StateToggleFunctor) : Prop :=
  f.press.length = f.num_states ∧ f.needs_auto_release.length = f.num_states ∧
  f.release.length = f.num_states ∧ f.current_toggle < f.num_states

instance (f : StateToggleFunctor) : Decidable (WF f) := by
  unfold WF; infer_instance

/-- Models Python `list.pop()` with no argument: fails on an empty list,
otherwise removes the last element. -/
def pop? {α : Type} (l : List α) : Option (List α) :=
  if l.isEmpty then none else some l.dropLast

/-- Iterated `pop?`: the effect of a loop that pops `n` times, aborting with
the raised error if the list runs empty. -/
def popN {α : Type} (l : List α) : Nat → Option (List α)
  | 0 => some l
  | n + 1 => do popN (← pop? l) n

/-- Models `StateToggleWidget._states_changed_cb` acting on the action data:
if the requested value exceeds `num_states`, append that many fresh empty
combinations; otherwise pop `num_states - value` combinations (a pop on an
empty list raises, hence `Option`). Finally `num_states` is set to the
requested value. The callback performs no range check of its own; the UI
spin box is configured with range `[0, MAX_STATES]`. The requested value is
an `Int` because nothing in the callback itself keeps it non-negative. -/
def states_changed_cb (a : Action) (value : Int) :
    Option (List KeyCombination × Int) :=
  if (a.num_states : Int) < value then
    some (a.chain_states ++ List.replicate (value - a.num_states).toNat ([] : KeyCombination),
      value)
  else
    (popN a.chain_states ((a.num_states : Int) - value).toNat).map (fun c => (c, value))

/-- The decimal digit characters, as produced by Python `str` on a digit. -/
def digitChar (d : Nat) : Char :=
  if d = 0 then '0' else if d = 1 then '1' else if d = 2 then '2' else
  if d = 3 then '3' else if d = 4 then '4' else if d = 5 then '5' else
  if d = 6 then '6' else if d = 7 then '7' else if d = 8 then '8' else
  if d = 9 then '9' else '*'

/-- Core loop of the decimal rendering of a natural number (fuel-based,
mirroring how a numeral is peeled off least-significant digit first). -/
def toDigitsCore : Nat → Nat → List Char → List Char
  | 0, _, ds => ds
  | fuel + 1, n, ds =>
    let d := digitChar (n % 10)
    let n' := n / 10
    if n' = 0 then d :: ds else toDigitsCore fuel n' (d :: ds)

/-- Models Python `str` applied to a non-negative integer: its decimal
numeral, most significant digit first (`str(0)` is `"0"`). -/
def pyStrNat (n : Nat) : String :=
  ⟨toDigitsCore (n + 1) n []⟩

/-- Models Python `str` applied to a boolean: `"True"` or `"False"`. -/
def pyStrBool (b : Bool) : String :=
  if b then "True" else "False"

/-- Models Python `int` applied to a string holding a decimal numeral: fails
unless the string is non-empty and all digits, otherwise folds the digits
most significant first. (Python `int` also accepts signs and surrounding
whitespace; only the digit-string forms matter here, since the schema
declares `scan-code` a non-negative decimal integer and serialization only
emits such strings.) -/
def pyIntNat? (s : String) : Option Nat :=
  if s.data ≠ [] ∧ s.data.all Char.isDigit then
    some (s.data.foldl (fun n c => n * 10 + (c.toNat - Char.toNat '0')) 0)
  else none

/-- Modelled from the spec: `gremlin.profile.parse_bool` is not part of this
repository; per the spec the `extended` attribute holds the canonical
textual boolean encoding "True"/"False" understood by the shared boolean
parser, so the parser maps exactly those two strings back to booleans and
fails otherwise. -/
def parse_bool (s : String) : Option Bool :=
  if s = "True" then some true
  else if s = "False" then some false
  else none

/-- One `key` element of the persisted document: the textual values of its
`scan-code` and `extended` attributes. -/
structure XmlKey where
  scanCode : String
  extended : String
deriving DecidableEq

/-- One `state` element: its `key` children in document order. -/
abbrev XmlState := List XmlKey

/-- The root element's `state` children in document order (the abstract shape
of the XML fragment; tags carry no further information). -/
abbrev XmlNode := List XmlState

/-- Models `StateToggle._generate_xml`: one `state` element per entry of
`chain_states`, in order, each with one `key` element per key carrying
`scan-code = str(key[0])` and `extended = str(key[1])`. -/
def generate_xml (a : Action) : XmlNode :=
  a.chain_states.map (fun st => st.map (fun k => ⟨pyStrNat k.1, pyStrBool k.2⟩))

/-- Models the parsing of one `key` element in `StateToggle._parse_xml`:
`int(child.get("scan-code"))` and `parse_bool(child.get("extended"))`. -/
def parseKey (k : XmlKey) : Option KeyId := do
  let sc ← pyIntNat? k.scanCode
  let ext ← parse_bool k.extended
  some (sc, ext)

/-- Models `StateToggle._parse_xml`: for each `state` element in document
order, parse its `key` children in order into a key combination, append it
to `chain_states` and increment `num_states`. The method only ever appends
to the instance it is called on; a parse failure raises, hence `Option`. -/
def parse_xml (a : Action) (node : XmlNode) : Option Action :=
  node.foldlM (fun acc st => do
    let keys ← st.mapM parseKey
    some { chain_states := acc.chain_states ++ [keys]
           num_states := acc.num_states + 1 }) a

/-- Reading elements of a list at the indices of a half-open range succeeds
exactly when the whole range is in bounds, and then returns the corresponding
slice. -/
theorem mapM_getElem?_range' {α : Type} (l : List α) :
    ∀ (n k : Nat), (List.range' k n).mapM (fun i => l[i]?) =
      if n ≤ l.length - k then some ((l.drop k).take n) else none := by
  intro n
  induction n with
  | zero =>
    intro k
    rw [if_pos (Nat.zero_le _)]
    rfl
  | succ n ih =>
    intro k
    have hcons : List.range' k (n + 1) = k :: List.range' (k + 1) n := rfl
    rw [hcons, List.mapM_cons]
    by_cases hk : k < l.length
    · have h1 : l[k]? = some l[k] := List.getElem?_eq_getElem hk
      rw [h1, ih (k + 1)]
      by_cases h2 : n + 1 ≤ l.length - k
      · have h3 : n ≤ l.length - (k + 1) := by omega
        rw [if_pos h3, if_pos h2]
        show some (l[k] :: (l.drop (k + 1)).take n) = some ((l.drop k).take (n + 1))
        rw [← List.getElem_cons_drop l k hk, List.take_succ_cons]
      · have h3 : ¬ n ≤ l.length - (k + 1) := by omega
        rw [if_neg h3, if_neg h2]
        rfl
    · have h1 : l[k]? = none := by
        rw [List.getElem?_eq_none_iff]; omega
      have h2 : ¬ (n + 1 ≤ l.length - k) := by omega
      rw [h1, if_neg h2]
      rfl

/-- Special case of the previous lemma for ranges starting at 0. -/
theorem mapM_getElem?_range {α : Type} (l : List α) (n : Nat) :
    (List.range n).mapM (fun i => l[i]?) =
      if n ≤ l.length then some (l.take n) else none := by
  rw [List.range_eq_range']
  simpa using mapM_getElem?_range' l n 0

/-- Closed form of `StateToggleFunctor.init`: it succeeds exactly when
`num_states` does not exceed the length of `chain_states`, and then builds
the press/release macros of the first `num_states` combinations. -/
theorem init_eq (a : Action) :
    StateToggleFunctor.init a =
      if a.num_states ≤ a.chain_states.length then
        some { press := (a.chain_states.take a.num_states).map (fun c => c.map KeyEvent.press)
               needs_auto_release := (a.chain_states.take a.num_states).map (fun _ => true)
               release := (a.chain_states.take a.num_states).map (fun c => c.map KeyEvent.release)
               num_states := a.num_states
               current_toggle := 0 }
      else none := by
  unfold StateToggleFunctor.init
  rw [mapM_getElem?_range]
  by_cases h : a.num_states ≤ a.chain_states.length <;> simp [h]

/-- A successfully constructed engine with at least one state is
well-formed, starts at cursor 0, and copies `num_states` from the action. -/
theorem init_wf (a : Action) (f : StateToggleFunctor)
    (hinit : StateToggleFunctor.init a = some f) (hn : 1 ≤ a.num_states) :
    WF f ∧ f.current_toggle = 0 ∧ f.num_states = a.num_states := by
  rw [init_eq] at hinit
  by_cases h : a.num_states ≤ a.chain_states.length
  · rw [if_pos h] at hinit
    cases hinit
    refine ⟨⟨?_, ?_, ?_, ?_⟩, rfl, rfl⟩
    all_goals simp [List.length_take, Nat.min_eq_left h]
    omega
  · rw [if_neg h] at hinit
    cases hinit

/-- On an activation event a well-formed engine enqueues the current press
macro, bumps the registration count according to the auto-release flag, and
leaves the functor (in particular the cursor) untouched. -/
theorem process_event_true_eq (s : EngineState) (h : WF s.functor) :
    ∃ m auto, s.functor.press[s.functor.current_toggle]? = some m ∧
      s.functor.needs_auto_release[s.functor.current_toggle]? = some auto ∧
      process_event s true = some ({ s with
        queue := s.queue ++ [m]
        registered := if auto then s.registered + 1 else s.registered }, true) := by
  obtain ⟨h1, h2, _, h4⟩ := h
  have hm : s.functor.current_toggle < s.functor.press.length := by omega
  have ha : s.functor.current_toggle < s.functor.needs_auto_release.length := by omega
  refine ⟨s.functor.press[s.functor.current_toggle], s.functor.needs_auto_release[s.functor.current_toggle],
    List.getElem?_eq_getElem hm, List.getElem?_eq_getElem ha, ?_⟩
  simp [process_event, List.getElem?_eq_getElem, hm, ha]

/-- On a deactivation event a well-formed engine enqueues the current
release macro and advances the cursor modulo `num_states`. -/
theorem process_event_false_eq (s : EngineState) (h : WF s.functor) :
    ∃ m, s.functor.release[s.functor.current_toggle]? = some m ∧
      process_event s false = some ({ s with
        queue := s.queue ++ [m]
        functor := { s.functor with
          current_toggle := (s.functor.current_toggle + 1) % s.functor.num_states } }, true) := by
  obtain ⟨_, _, h3, h4⟩ := h
  have hm : s.functor.current_toggle < s.functor.release.length := by omega
  have hn : s.functor.num_states ≠ 0 := by omega
  refine ⟨s.functor.release[s.functor.current_toggle], List.getElem?_eq_getElem hm, ?_⟩
  simp [process_event, List.getElem?_eq_getElem, hm, hn]

/-- `process_event` on a well-formed engine never fails, returns `true`, and
preserves well-formedness and the immutable parts of the functor. -/
theorem process_event_wf (s : EngineState) (e : Bool) (h : WF s.functor) :
    ∃ s', process_event s e = some (s', true) ∧ WF s'.functor ∧
      s'.functor.press = s.functor.press ∧
      s'.functor.needs_auto_release = s.functor.needs_auto_release ∧
      s'.functor.release = s.functor.release ∧
      s'.functor.num_states = s.functor.num_states := by
  cases e with
  | true =>
    obtain ⟨m, auto, _, _, hrun⟩ := process_event_true_eq s h
    exact ⟨_, hrun, h, rfl, rfl, rfl, rfl⟩
  | false =>
    obtain ⟨m, _, hrun⟩ := process_event_false_eq s h
    obtain ⟨h1, h2, h3, h4⟩ := h
    refine ⟨_, hrun, ⟨h1, h2, h3, ?_⟩, rfl, rfl, rfl, rfl⟩
    exact Nat.mod_lt _ (by omega)

/-- Running any event sequence from a well-formed engine state never fails
and preserves well-formedness and `num_states`. -/
theorem runEvents_wf (events : List Bool) : ∀ (s : EngineState), WF s.functor →
    ∃ s', runEvents s events = some s' ∧ WF s'.functor ∧
      s'.functor.num_states = s.functor.num_states := by
  induction events with
  | nil => intro s h; exact ⟨s, rfl, h, rfl⟩
  | cons e es ih =>
    intro s h
    obtain ⟨s1, hrun, hwf, _, _, _, hnum⟩ := process_event_wf s e h
    obtain ⟨s', hrun', hwf', hnum'⟩ := ih s1 hwf
    refine ⟨s', ?_, hwf', by rw [hnum', hnum]⟩
    simp only [runEvents, List.foldlM_cons, hrun, Option.map_some]
    exact hrun'

/-- Stepping `runEvents` over the first event of a sequence. -/
theorem runEvents_cons (s : EngineState) (e : Bool) (es : List Bool)
    (s1 : EngineState) (b : Bool) (h : process_event s e = some (s1, b)) :
    runEvents s (e :: es) = runEvents s1 es := by
  simp only [runEvents, List.foldlM_cons, h, Option.map_some']
  rfl

/-- Running the alternating sequence of `n` activate/deactivate pairs from a
well-formed engine state succeeds and moves the cursor forward by `n`,
modulo `num_states`. -/
theorem runEvents_alternating (n : Nat) : ∀ (s : EngineState), WF s.functor →
    ∃ s', runEvents s (alternating n) = some s' ∧
      s'.functor.num_states = s.functor.num_states ∧
      s'.functor.current_toggle =
        (s.functor.current_toggle + n) % s.functor.num_states := by
  induction n with
  | zero =>
    intro s h
    exact ⟨s, rfl, rfl, (Nat.mod_eq_of_lt h.2.2.2).symm⟩
  | succ n ih =>
    intro s h
    obtain ⟨ha, hb, hc, hd⟩ := h
    obtain ⟨m1, auto, hm1, hauto, h1⟩ := process_event_true_eq s ⟨ha, hb, hc, hd⟩
    obtain ⟨m2, hm2, h2⟩ := process_event_false_eq
      { s with queue := s.queue ++ [m1]
               registered := if auto then s.registered + 1 else s.registered }
      ⟨ha, hb, hc, hd⟩
    have hpos : 0 < s.functor.num_states := by omega
    obtain ⟨s', hrun, hnum, hcur⟩ := ih
      { s with queue := (s.queue ++ [m1]) ++ [m2]
               registered := if auto then s.registered + 1 else s.registered
               functor := { s.functor with
                 current_toggle := (s.functor.current_toggle + 1) % s.functor.num_states } }
      ⟨ha, hb, hc, Nat.mod_lt _ hpos⟩
    refine ⟨s', ?_, hnum, ?_⟩
    · rw [show alternating (n + 1) = true :: false :: alternating n from rfl,
        runEvents_cons _ _ _ _ _ h1, runEvents_cons _ _ _ _ _ h2]
      exact hrun
    · rw [hcur]
      show ((s.functor.current_toggle + 1) % s.functor.num_states + n) % s.functor.num_states =
        (s.functor.current_toggle + (n + 1)) % s.functor.num_states
      rw [Nat.mod_add_mod]
      congr 1
      omega

/-- Claim C1 (amended): constructing the runtime engine from an action with
`num_states == 0` does not fail fast: no InvalidConfiguration error exists in
the code, and the zero-length engine is built (empty press/release tables,
cursor 0). Any subsequent `process_event` call on that engine raises (index
error on the empty macro tables, and the cursor advance would be a modulo by
zero). -/
theorem init_zero_states (a : Action) (h : a.num_states = 0) :
    StateToggleFunctor.init a = some ⟨[], [], [], 0, 0⟩ ∧
    process_event ⟨⟨[], [], [], 0, 0⟩, [], 0⟩ true = none ∧
    process_event ⟨⟨[], [], [], 0, 0⟩, [], 0⟩ false = none := by
  refine ⟨?_, rfl, rfl⟩
  rw [init_eq, if_pos (by omega)]
  simp [h]

/-- Witness for C1's amended theorem at a freshly created action. -/
theorem init_zero_states_witness :
    freshAction.num_states = 0 ∧
    (StateToggleFunctor.init freshAction = some ⟨[], [], [], 0, 0⟩ ∧
     process_event ⟨⟨[], [], [], 0, 0⟩, [], 0⟩ true = none ∧
     process_event ⟨⟨[], [], [], 0, 0⟩, [], 0⟩ false = none) :=
  ⟨rfl, init_zero_states freshAction rfl⟩

/-- Claim C1 counterexample: construction from a zero-state action returns an
engine instead of failing, refuting the claim that construction fails fast
with an InvalidConfiguration error. -/
theorem init_zero_states_counterexample :
    StateToggleFunctor.init ⟨[], 0⟩ ≠ none ∧
    StateToggleFunctor.init ⟨[], 0⟩ = some ⟨[], [], [], 0, 0⟩ := by
  exact ⟨by decide, by decide⟩

/-- Claim C2: for every engine built from a valid StateList with
`num_states = N >= 1`, starting from any cursor value (any value in the
cursor's range), a sequence of exactly `2*N` process_event calls alternating
activation and deactivation, beginning with an activation, returns
`current_toggle` to its starting value. -/
theorem toggle_cycle (a : Action) (f : StateToggleFunctor) (c : Nat)
    (q : List KeySeq) (r : Nat)
    (hinit : StateToggleFunctor.init a = some f) (hc : c < a.num_states) :
    (alternating a.num_states).length = 2 * a.num_states ∧
    ∃ s', runEvents ⟨{ f with current_toggle := c }, q, r⟩
        (alternating a.num_states) = some s' ∧
      s'.functor.current_toggle = c := by
  have hn : 1 ≤ a.num_states := Nat.lt_of_le_of_lt (Nat.zero_le c) hc
  obtain ⟨⟨ha, hb, hc', _⟩, _, hnum⟩ := init_wf a f hinit hn
  have hwf : WF ({ f with current_toggle := c } : StateToggleFunctor) :=
    ⟨ha, hb, hc', by rw [hnum]; exact hc⟩
  obtain ⟨s', hrun, _, hcur⟩ :=
    runEvents_alternating a.num_states ⟨{ f with current_toggle := c }, q, r⟩ hwf
  refine ⟨?_, s', hrun, ?_⟩
  · clear hrun hcur
    induction a.num_states with
    | zero => rfl
    | succ n ih => simpa [alternating, Nat.mul_succ] using by omega
  · rw [hcur]
    show (c + a.num_states) % f.num_states = c
    rw [hnum, Nat.add_mod_right, Nat.mod_eq_of_lt hc]

/-- Witness for C2 on the spec's two-state scenario, starting at cursor 1. -/
theorem toggle_cycle_witness :
    StateToggleFunctor.init ⟨[[(30, false)], [(42, false), (44, false)]], 2⟩ =
      some ⟨[[KeyEvent.press (30, false)],
             [KeyEvent.press (42, false), KeyEvent.press (44, false)]],
            [true, true],
            [[KeyEvent.release (30, false)],
             [KeyEvent.release (42, false), KeyEvent.release (44, false)]],
            2, 0⟩ ∧
    1 < 2 ∧
    ((alternating 2).length = 2 * 2 ∧
     ∃ s', runEvents ⟨{ press := [[KeyEvent.press (30, false)],
                                  [KeyEvent.press (42, false), KeyEvent.press (44, false)]]
                        needs_auto_release := [true, true]
                        release := [[KeyEvent.release (30, false)],
                                    [KeyEvent.release (42, false), KeyEvent.release (44, false)]]
                        num_states := 2
                        current_toggle := 1 }, [], 0⟩ (alternating 2) = some s' ∧
       s'.functor.current_toggle = 1) :=
  ⟨by decide, by decide,
    toggle_cycle ⟨[[(30, false)], [(42, false), (44, false)]], 2⟩
      ⟨[[KeyEvent.press (30, false)],
        [KeyEvent.press (42, false), KeyEvent.press (44, false)]],
       [true, true],
       [[KeyEvent.release (30, false)],
        [KeyEvent.release (42, false), KeyEvent.release (44, false)]],
       2, 0⟩ 1 [] 0 (by decide) (by decide)⟩

/-- Claim C3: on a deactivation event (`value.current == false`) the engine
enqueues exactly `release[current_toggle]` and then advances the cursor to
`(current_toggle + 1) mod num_states`; on an activation event
(`value.current == true`) the cursor (indeed the whole functor) is left
unchanged. Stated for an engine built by `init` at an arbitrary in-range
cursor, queue and registration count. -/
theorem process_event_deactivate_activate (a : Action) (f : StateToggleFunctor)
    (c : Nat) (q : List KeySeq) (r : Nat)
    (hinit : StateToggleFunctor.init a = some f) (hc : c < a.num_states) :
    (∃ m, f.release[c]? = some m ∧
       ∃ s', process_event ⟨{ f with current_toggle := c }, q, r⟩ false = some (s', true) ∧
         s'.queue = q ++ [m] ∧
         s'.functor.current_toggle = (c + 1) % a.num_states) ∧
    (∃ s', process_event ⟨{ f with current_toggle := c }, q, r⟩ true = some (s', true) ∧
       s'.functor = { f with current_toggle := c } ∧ s'.queue = q ++ [f.press[c]?.getD []]) := by
  have hn : 1 ≤ a.num_states := Nat.lt_of_le_of_lt (Nat.zero_le c) hc
  obtain ⟨⟨ha, hb, hc', _⟩, _, hnum⟩ := init_wf a f hinit hn
  have hwf : WF ({ f with current_toggle := c } : StateToggleFunctor) :=
    ⟨ha, hb, hc', by rw [hnum]; exact hc⟩
  constructor
  · obtain ⟨m, hm, hrun⟩ := process_event_false_eq ⟨{ f with current_toggle := c }, q, r⟩ hwf
    exact ⟨m, hm, _, hrun, rfl, by rw [hnum]⟩
  · obtain ⟨m, auto, hm, hauto, hrun⟩ :=
      process_event_true_eq ⟨{ f with current_toggle := c }, q, r⟩ hwf
    exact ⟨_, hrun, rfl, by simp [hm]⟩

/-- Witness for C3 on the spec's two-state scenario at cursor 0. -/
theorem process_event_deactivate_activate_witness :
    StateToggleFunctor.init ⟨[[(30, false)], [(42, false), (44, false)]], 2⟩ =
      some ⟨[[KeyEvent.press (30, false)],
             [KeyEvent.press (42, false), KeyEvent.press (44, false)]],
            [true, true],
            [[KeyEvent.release (30, false)],
             [KeyEvent.release (42, false), KeyEvent.release (44, false)]],
            2, 0⟩ ∧
    0 < 2 ∧
    ((∃ m, ([[KeyEvent.release (30, false)],
             [KeyEvent.release (42, false), KeyEvent.release (44, false)]] : List KeySeq)[0]? =
           some m ∧
       ∃ s', process_event ⟨{ press := [[KeyEvent.press (30, false)],
                                        [KeyEvent.press (42, false), KeyEvent.press (44, false)]]
                              needs_auto_release := [true, true]
                              release := [[KeyEvent.release (30, false)],
                                          [KeyEvent.release (42, false), KeyEvent.release (44, false)]]
                              num_states := 2
                              current_toggle := 0 }, [], 0⟩ false = some (s', true) ∧
         s'.queue = [] ++ [m] ∧ s'.functor.current_toggle = (0 + 1) % 2) ∧
     (∃ s', process_event ⟨{ press := [[KeyEvent.press (30, false)],
                                       [KeyEvent.press (42, false), KeyEvent.press (44, false)]]
                             needs_auto_release := [true, true]
                             release := [[KeyEvent.release (30, false)],
                                         [KeyEvent.release (42, false), KeyEvent.release (44, false)]]
                             num_states := 2
                             current_toggle := 0 }, [], 0⟩ true = some (s', true) ∧
       s'.functor = { press := [[KeyEvent.press (30, false)],
                                [KeyEvent.press (42, false), KeyEvent.press (44, false)]]
                      needs_auto_release := [true, true]
                      release := [[KeyEvent.release (30, false)],
                                  [KeyEvent.release (42, false), KeyEvent.release (44, false)]]
                      num_states := 2
                      current_toggle := 0 } ∧
       s'.queue = [] ++ [([[KeyEvent.press (30, false)],
                           [KeyEvent.press (42, false), KeyEvent.press (44, false)]] :
                          List KeySeq)[0]?.getD []])) :=
  ⟨by decide, by decide,
    process_event_deactivate_activate ⟨[[(30, false)], [(42, false), (44, false)]], 2⟩
      ⟨[[KeyEvent.press (30, false)],
        [KeyEvent.press (42, false), KeyEvent.press (44, false)]],
       [true, true],
       [[KeyEvent.release (30, false)],
        [KeyEvent.release (42, false), KeyEvent.release (44, false)]],
       2, 0⟩ 0 [] 0 (by decide) (by decide)⟩

/-- Claim C4 (amended): for every engine with `num_states >= 1`, a
deactivation as the very first `process_event` call after construction
enqueues `release[0]` and advances the cursor to `1 % num_states` — that is,
to 1 whenever `num_states >= 2`, but wrapping to 0 for a one-state engine;
the deactivation branch is not guarded on a preceding activation. -/
theorem first_event_deactivation (a : Action) (f : StateToggleFunctor)
    (hinit : StateToggleFunctor.init a = some f) (hn : 1 ≤ a.num_states) :
    ∃ m, f.release[0]? = some m ∧
      ∃ s', process_event ⟨f, [], 0⟩ false = some (s', true) ∧
        s'.queue = [m] ∧ s'.functor.current_toggle = 1 % a.num_states := by
  obtain ⟨hwf, hc0, hnum⟩ := init_wf a f hinit hn
  obtain ⟨m, hm, hrun⟩ := process_event_false_eq ⟨f, [], 0⟩ hwf
  rw [hc0] at hm
  exact ⟨m, hm, _, hrun, rfl, by rw [hc0, hnum]⟩

/-- Witness for C4's amended theorem on a two-state engine: the first
deactivation moves the cursor to 1 % 2 = 1. -/
theorem first_event_deactivation_witness :
    StateToggleFunctor.init ⟨[[(30, false)], [(42, false)]], 2⟩ =
      some ⟨[[KeyEvent.press (30, false)], [KeyEvent.press (42, false)]],
            [true, true],
            [[KeyEvent.release (30, false)], [KeyEvent.release (42, false)]],
            2, 0⟩ ∧
    1 ≤ 2 ∧
    (∃ m, ([[KeyEvent.release (30, false)], [KeyEvent.release (42, false)]] :
        List KeySeq)[0]? = some m ∧
      ∃ s', process_event ⟨⟨[[KeyEvent.press (30, false)], [KeyEvent.press (42, false)]],
            [true, true],
            [[KeyEvent.release (30, false)], [KeyEvent.release (42, false)]],
            2, 0⟩, [], 0⟩ false = some (s', true) ∧
        s'.queue = [m] ∧ s'.functor.current_toggle = 1 % 2) :=
  ⟨by decide, by decide,
    first_event_deactivation ⟨[[(30, false)], [(42, false)]], 2⟩
      ⟨[[KeyEvent.press (30, false)], [KeyEvent.press (42, false)]],
       [true, true],
       [[KeyEvent.release (30, false)], [KeyEvent.release (42, false)]],
       2, 0⟩ (by decide) (by decide)⟩

/-- Claim C4 counterexample: on a one-state engine the very first
deactivation advances the cursor to `(0 + 1) % 1 = 0`, not to 1 as the claim
states for every engine with `num_states >= 1`. -/
theorem first_event_deactivation_counterexample :
    ((StateToggleFunctor.init ⟨[[(30, false)]], 1⟩).bind
        (fun f => (process_event ⟨f, [], 0⟩ false).map
          (fun p => p.1.functor.current_toggle))) = some 0 ∧
    ((StateToggleFunctor.init ⟨[[(30, false)]], 1⟩).bind
        (fun f => (process_event ⟨f, [], 0⟩ false).map
          (fun p => p.1.functor.current_toggle))) ≠ some 1 := by
  exact ⟨by decide, by decide⟩

/-- Claim C8: for every engine constructed with `num_states >= 1`,
`current_toggle` is 0 at construction, and after every sequence of
`process_event` calls the run succeeds (no call raises once the engine is
constructed) with the cursor still in `[0, num_states)`. -/
theorem cursor_invariant (a : Action) (f : StateToggleFunctor)
    (hinit : StateToggleFunctor.init a = some f) (hn : 1 ≤ a.num_states) :
    f.current_toggle = 0 ∧
    ∀ events : List Bool, ∃ s', runEvents ⟨f, [], 0⟩ events = some s' ∧
      s'.functor.current_toggle < a.num_states := by
  obtain ⟨hwf, hc0, hnum⟩ := init_wf a f hinit hn
  refine ⟨hc0, fun events => ?_⟩
  obtain ⟨s', hrun, hwf', hnum'⟩ := runEvents_wf events ⟨f, [], 0⟩ hwf
  refine ⟨s', hrun, ?_⟩
  rw [← hnum]
  show s'.functor.current_toggle < f.num_states
  rw [← hnum']
  exact hwf'.2.2.2

/-- Witness for C8 on the spec's two-state scenario. -/
theorem cursor_invariant_witness :
    StateToggleFunctor.init ⟨[[(30, false)], [(42, false), (44, false)]], 2⟩ =
      some ⟨[[KeyEvent.press (30, false)],
             [KeyEvent.press (42, false), KeyEvent.press (44, false)]],
            [true, true],
            [[KeyEvent.release (30, false)],
             [KeyEvent.release (42, false), KeyEvent.release (44, false)]],
            2, 0⟩ ∧
    1 ≤ 2 ∧
    ((⟨[[KeyEvent.press (30, false)],
        [KeyEvent.press (42, false), KeyEvent.press (44, false)]],
       [true, true],
       [[KeyEvent.release (30, false)],
        [KeyEvent.release (42, false), KeyEvent.release (44, false)]],
       2, 0⟩ : StateToggleFunctor).current_toggle = 0 ∧
     ∀ events : List Bool, ∃ s',
       runEvents ⟨⟨[[KeyEvent.press (30, false)],
                    [KeyEvent.press (42, false), KeyEvent.press (44, false)]],
                   [true, true],
                   [[KeyEvent.release (30, false)],
                    [KeyEvent.release (42, false), KeyEvent.release (44, false)]],
                   2, 0⟩, [], 0⟩ events = some s' ∧
         s'.functor.current_toggle < 2) :=
  ⟨by decide, by decide,
    cursor_invariant ⟨[[(30, false)], [(42, false), (44, false)]], 2⟩
      ⟨[[KeyEvent.press (30, false)],
        [KeyEvent.press (42, false), KeyEvent.press (44, false)]],
       [true, true],
       [[KeyEvent.release (30, false)],
        [KeyEvent.release (42, false), KeyEvent.release (44, false)]],
       2, 0⟩ (by decide) (by decide)⟩

/-- Popping at most the length of the list succeeds and keeps the prefix. -/
theorem popN_le {α : Type} : ∀ (n : Nat) (l : List α), n ≤ l.length →
    popN l n = some (l.take (l.length - n)) := by
  intro n
  induction n with
  | zero => intro l _; simp [popN]
  | succ n ih =>
    intro l h
    have hne : l.isEmpty = false := by
      cases l with
      | nil => simp at h
      | cons x xs => rfl
    have hlen : l.dropLast.length = l.length - 1 := List.length_dropLast l
    have hstep : popN l (n + 1) = popN l.dropLast n := by
      simp [popN, pop?, hne]
    rw [hstep, ih l.dropLast (by omega), hlen, List.dropLast_eq_take, List.take_take]
    have hmin : min (l.length - 1 - n) (l.length - 1) = l.length - (n + 1) := by omega
    rw [hmin]

/-- Popping more elements than the list has raises (pop on an empty list). -/
theorem popN_gt {α : Type} : ∀ (n : Nat) (l : List α), l.length < n →
    popN l n = none := by
  intro n
  induction n with
  | zero => intro l h; omega
  | succ n ih =>
    intro l h
    cases l with
    | nil => rfl
    | cons x xs =>
      have hrec := ih (x :: xs).dropLast (by simp at h ⊢; omega)
      simp [popN, pop?, hrec]

/-- Claim C7: every in-range resize behaves as specified: growing from `k`
to `v >= k` appends exactly `v - k` empty combinations at the tail, leaving
the existing combinations unchanged in place; shrinking to `v <= k` keeps
exactly the first `v` combinations; in both cases `num_states` is set to the
new count. -/
theorem resize_in_range (a : Action) (v : Nat)
    (hlen : a.chain_states.length = a.num_states) (_hv : v ≤ MAX_STATES) :
    (a.num_states ≤ v →
      states_changed_cb a (v : Int) =
        some (a.chain_states ++ List.replicate (v - a.num_states) [], (v : Int))) ∧
    (v ≤ a.num_states →
      states_changed_cb a (v : Int) = some (a.chain_states.take v, (v : Int))) := by
  constructor
  · intro hgrow
    by_cases heq : a.num_states = v
    · have hlt : ¬ ((a.num_states : Int) < (v : Int)) := by omega
      rw [states_changed_cb, if_neg hlt]
      have h0 : ((a.num_states : Int) - (v : Int)).toNat = 0 := by omega
      rw [h0, popN_le 0 a.chain_states (by omega)]
      simp [heq]
    · have hlt : (a.num_states : Int) < (v : Int) := by omega
      rw [states_changed_cb, if_pos hlt]
      have h1 : ((v : Int) - (a.num_states : Int)).toNat = v - a.num_states := by omega
      rw [h1]
  · intro hshrink
    have hlt : ¬ ((a.num_states : Int) < (v : Int)) := by omega
    rw [states_changed_cb, if_neg hlt]
    have h1 : ((a.num_states : Int) - (v : Int)).toNat = a.num_states - v := by omega
    rw [h1, popN_le (a.num_states - v) a.chain_states (by omega)]
    have h2 : a.chain_states.length - (a.num_states - v) = v := by omega
    rw [h2]
    rfl

/-- Witness for C7: growing a 2-state list to 3 appends one empty
combination; shrinking it to 1 keeps only the first combination. -/
theorem resize_in_range_witness :
    ([[(30, false)], [(42, false)]] : List KeyCombination).length = 2 ∧
    3 ≤ MAX_STATES ∧ 1 ≤ MAX_STATES ∧
    states_changed_cb ⟨[[(30, false)], [(42, false)]], 2⟩ (3 : Int) =
      some ([[(30, false)], [(42, false)]] ++ List.replicate (3 - 2) [], (3 : Int)) ∧
    states_changed_cb ⟨[[(30, false)], [(42, false)]], 2⟩ (1 : Int) =
      some (([[(30, false)], [(42, false)]] : List KeyCombination).take 1, (1 : Int)) :=
  ⟨by decide, by decide, by decide,
    (resize_in_range ⟨[[(30, false)], [(42, false)]], 2⟩ 3 (by decide) (by decide)).1 (by decide),
    (resize_in_range ⟨[[(30, false)], [(42, false)]], 2⟩ 1 (by decide) (by decide)).2 (by decide)⟩

/-- Claim C6 (amended): the resize callback performs no range validation of
its own (range clamping is left to the UI spin box, configured to
`[0, MAX_STATES]`). Called with target `MAX_STATES + 1` the request is not
rejected: the list grows past the bound and `num_states` is set to
`MAX_STATES + 1`. Called with a negative target the callback raises an
uncontrolled index error (pop on an exhausted list), not an
InvalidArgument-style rejection. -/
theorem resize_out_of_range (a : Action)
    (hlen : a.chain_states.length = a.num_states) (hmax : a.num_states ≤ MAX_STATES) :
    states_changed_cb a ((MAX_STATES : Int) + 1) =
      some (a.chain_states ++ List.replicate (MAX_STATES + 1 - a.num_states) [],
        (MAX_STATES : Int) + 1) ∧
    ∀ v : Int, v < 0 → states_changed_cb a v = none := by
  constructor
  · have hlt : (a.num_states : Int) < (MAX_STATES : Int) + 1 := by
      unfold MAX_STATES at hmax ⊢; omega
    rw [states_changed_cb, if_pos hlt]
    have h1 : ((MAX_STATES : Int) + 1 - (a.num_states : Int)).toNat =
        MAX_STATES + 1 - a.num_states := by
      unfold MAX_STATES at hmax ⊢; omega
    rw [h1]
  · intro v hv
    have hlt : ¬ ((a.num_states : Int) < v) := by omega
    rw [states_changed_cb, if_neg hlt]
    have h1 : a.chain_states.length < ((a.num_states : Int) - v).toNat := by omega
    rw [popN_gt _ _ h1]
    rfl

/-- Witness for C6's amended theorem on a full 10-state list: resizing to 11
is accepted and appends, resizing to -1 raises. -/
theorem resize_out_of_range_witness :
    (List.replicate 10 ([] : KeyCombination)).length = 10 ∧
    10 ≤ MAX_STATES ∧
    states_changed_cb ⟨List.replicate 10 [], 10⟩ ((MAX_STATES : Int) + 1) =
      some (List.replicate 10 [] ++ List.replicate (MAX_STATES + 1 - 10) [],
        (MAX_STATES : Int) + 1) ∧
    states_changed_cb ⟨List.replicate 10 [], 10⟩ (-1) = none :=
  ⟨by decide, by decide,
    (resize_out_of_range ⟨List.replicate 10 [], 10⟩ (by decide) (by decide)).1,
    (resize_out_of_range ⟨List.replicate 10 [], 10⟩ (by decide) (by decide)).2 (-1) (by decide)⟩

/-- Claim C6 counterexample: on a full 10-state list a resize request to
`MAX_STATES + 1 = 11` is not rejected and does not leave the StateList
unchanged: it returns the grown 11-entry list with `num_states = 11`. -/
theorem resize_out_of_range_counterexample :
    states_changed_cb ⟨List.replicate 10 [], 10⟩ ((MAX_STATES : Int) + 1) =
      some (List.replicate 11 [], 11) ∧
    states_changed_cb ⟨List.replicate 10 [], 10⟩ ((MAX_STATES : Int) + 1) ≠
      some (List.replicate 10 [], 10) := by
  exact ⟨by decide, by decide⟩

/-- The characters emitted for single digits are decimal digit characters. -/
theorem digitChar_isDigit (d : Nat) (h : d < 10) : (digitChar d).isDigit = true := by
  interval_cases d <;> decide

/-- Converting a digit to its character and back is the identity. -/
theorem digitChar_val (d : Nat) (h : d < 10) :
    (digitChar d).toNat - Char.toNat '0' = d := by
  interval_cases d <;> decide

/-- With enough fuel, the rendering loop produces the decimal digits of its
input (most significant first) in front of the accumulator. -/
theorem toDigitsCore_eq : ∀ (fuel n : Nat), n < fuel → ∀ (ds : List Char),
    toDigitsCore fuel n ds =
      (if n = 0 then ['0'] else ((Nat.digits 10 n).map digitChar).reverse) ++ ds := by
  intro fuel
  induction fuel with
  | zero => intro n h; omega
  | succ fuel ih =>
    intro n h ds
    by_cases h0 : n = 0
    · subst h0; rfl
    · show (if n / 10 = 0 then digitChar (n % 10) :: ds
            else toDigitsCore fuel (n / 10) (digitChar (n % 10) :: ds)) = _
      rw [if_neg h0]
      by_cases h10 : n / 10 = 0
      · rw [if_pos h10]
        have hd : Nat.digits 10 n = [n % 10] := by
          rw [Nat.digits_def' (by norm_num : (1 : Nat) < 10) (Nat.pos_of_ne_zero h0), h10]
          simp
        rw [hd]
        rfl
      · rw [if_neg h10]
        have hrec := ih (n / 10) (by omega) (digitChar (n % 10) :: ds)
        rw [hrec, if_neg h10]
        have hd : Nat.digits 10 n = n % 10 :: Nat.digits 10 (n / 10) :=
          Nat.digits_def' (by norm_num : (1 : Nat) < 10) (Nat.pos_of_ne_zero h0)
        rw [hd]
        simp

/-- Folding the parsing step over a digit list (most significant first)
computes the Horner value of the digits. -/
theorem foldr_digits (L : List Nat) (h : ∀ d ∈ L, d < 10) (a : Nat) :
    L.foldr (fun d y => y * 10 + ((digitChar d).toNat - Char.toNat '0')) a =
      a * 10 ^ L.length + Nat.ofDigits 10 L := by
  induction L with
  | nil => simp [Nat.ofDigits]
  | cons d L ih =>
    have hd : d < 10 := h d (by simp)
    have hL : ∀ x ∈ L, x < 10 := fun x hx => h x (by simp [hx])
    rw [List.foldr_cons, ih hL, digitChar_val d hd, Nat.ofDigits_cons]
    simp [List.length_cons, pow_succ]
    ring

/-- Round trip of the integer attribute encoding: Python `int` applied to
the output of Python `str` on a non-negative integer is that integer. -/
theorem pyIntNat?_pyStrNat (n : Nat) : pyIntNat? (pyStrNat n) = some n := by
  by_cases h0 : n = 0
  · subst h0; decide
  · have hcore := toDigitsCore_eq (n + 1) n (Nat.lt_succ_self n) []
    rw [if_neg h0] at hcore
    have hdata : (pyStrNat n).data = ((Nat.digits 10 n).map digitChar).reverse := by
      show (toDigitsCore (n + 1) n []).asString.data =
        ((Nat.digits 10 n).map digitChar).reverse
      rw [hcore]
      simp [List.asString]
    have hdig : ∀ d ∈ Nat.digits 10 n, d < 10 :=
      fun d hd => Nat.digits_lt_base (by norm_num) hd
    have hne : Nat.digits 10 n ≠ [] := Nat.digits_ne_nil_iff_ne_zero.mpr h0
    rw [pyIntNat?]
    rw [if_pos ?cond]
    case cond =>
      constructor
      · rw [hdata]
        simp only [ne_eq, List.reverse_eq_nil_iff, List.map_eq_nil_iff]
        exact hne
      · rw [hdata, List.all_eq_true]
        intro c hc
        rw [List.mem_reverse, List.mem_map] at hc
        obtain ⟨d, hd, rfl⟩ := hc
        exact digitChar_isDigit d (hdig d hd)
    rw [hdata, List.foldl_reverse, List.foldr_map]
    rw [foldr_digits (Nat.digits 10 n) hdig 0]
    rw [Nat.zero_mul, Nat.zero_add, Nat.ofDigits_digits]

/-- Parsing the serialized form of one key returns that key. -/
theorem parseKey_gen (k : KeyId) :
    parseKey ⟨pyStrNat k.1, pyStrBool k.2⟩ = some k := by
  obtain ⟨sc, ext⟩ := k
  show parseKey ⟨pyStrNat sc, pyStrBool ext⟩ = some (sc, ext)
  unfold parseKey
  rw [pyIntNat?_pyStrNat]
  cases ext <;> rfl

/-- Parsing the serialized form of one state returns that state. -/
theorem mapM_parseKey_gen (st : KeyCombination) :
    (st.map (fun k => (⟨pyStrNat k.1, pyStrBool k.2⟩ : XmlKey))).mapM parseKey = some st := by
  induction st with
  | nil => rfl
  | cons k st ih =>
    rw [List.map_cons, List.mapM_cons, parseKey_gen, ih]
    rfl

/-- Parsing the serialized forms of a whole state list returns that list. -/
theorem mapM_parse_gen (states : List KeyCombination) :
    ((states.map (fun st => st.map (fun k => (⟨pyStrNat k.1, pyStrBool k.2⟩ : XmlKey)))).mapM
      (fun st => st.mapM parseKey)) = some states := by
  induction states with
  | nil => rfl
  | cons st states ih =>
    rw [List.map_cons, List.mapM_cons, mapM_parseKey_gen, ih]
    rfl

/-- Unfolding `parse_xml` over the first state element of the document. -/
theorem parse_xml_cons (a : Action) (st : XmlState) (node : XmlNode) :
    parse_xml a (st :: node) =
      (List.mapM parseKey st).bind
        (fun keys => parse_xml ⟨a.chain_states ++ [keys], a.num_states + 1⟩ node) := by
  unfold parse_xml
  rw [List.foldlM_cons]
  cases List.mapM parseKey st <;> rfl

/-- Closed form of `parse_xml`: it parses every state element in document
order and appends them all to the instance's existing list, incrementing
`num_states` once per state element; it fails exactly when some key fails to
parse. -/
theorem parse_xml_eq (node : XmlNode) : ∀ (a : Action),
    parse_xml a node =
      (node.mapM (fun st => List.mapM parseKey st)).map
        (fun parsed => ⟨a.chain_states ++ parsed, a.num_states + node.length⟩) := by
  induction node with
  | nil =>
    intro a
    show some a = some ⟨a.chain_states ++ [], a.num_states + 0⟩
    simp
  | cons st node ih =>
    intro a
    rw [parse_xml_cons, List.mapM_cons]
    cases hst : List.mapM parseKey st with
    | none => rfl
    | some keys =>
      show parse_xml ⟨a.chain_states ++ [keys], a.num_states + 1⟩ node = _
      rw [ih]
      cases hnode : node.mapM (fun st => List.mapM parseKey st) with
      | none => rfl
      | some rest =>
        show some (⟨(a.chain_states ++ [keys]) ++ rest,
            (a.num_states + 1) + node.length⟩ : Action) =
          some (⟨a.chain_states ++ keys :: rest,
            a.num_states + (st :: node).length⟩ : Action)
        simp only [Option.some.injEq, Action.mk.injEq]
        constructor
        · rw [List.append_assoc]
          rfl
        · rw [List.length_cons]
          omega

/-- Claim C5: deserializing, into a fresh action, the document produced by
serializing any StateList with `0 <= num_states <= MAX_STATES` yields a
StateList equal to the original — including states with empty key
combinations and combinations with duplicate scan codes, which the
quantification over all lists covers. -/
theorem codec_round_trip (L : Action)
    (hlen : L.chain_states.length = L.num_states) (_hmax : L.num_states ≤ MAX_STATES) :
    parse_xml freshAction (generate_xml L) = some L := by
  rw [parse_xml_eq]
  show ((L.chain_states.map
      (fun st => st.map (fun k => (⟨pyStrNat k.1, pyStrBool k.2⟩ : XmlKey)))).mapM
        (fun st => List.mapM parseKey st)).map
      (fun parsed => ⟨[] ++ parsed, 0 + (generate_xml L).length⟩) = some L
  rw [mapM_parse_gen]
  show some (⟨[] ++ L.chain_states, 0 + (generate_xml L).length⟩ : Action) = some L
  rw [List.nil_append]
  rw [show (generate_xml L).length = L.chain_states.length from List.length_map _ _]
  rw [Nat.zero_add, hlen]

/-- Witness for C5 on a two-state list containing a duplicate scan code and
an empty combination. -/
theorem codec_round_trip_witness :
    ([[(30, false), (30, false)], []] : List KeyCombination).length = 2 ∧
    2 ≤ MAX_STATES ∧
    parse_xml freshAction (generate_xml ⟨[[(30, false), (30, false)], []], 2⟩) =
      some ⟨[[(30, false), (30, false)], []], 2⟩ :=
  ⟨by decide, by decide,
    codec_round_trip ⟨[[(30, false), (30, false)], []], 2⟩ (by decide) (by decide)⟩

/-- A successful `mapM` over `Option` preserves the length of the list. -/
theorem mapM_some_length {α β : Type} (f : α → Option β) :
    ∀ (l : List α) (l' : List β), l.mapM f = some l' → l'.length = l.length := by
  intro l
  induction l with
  | nil =>
    intro l' h
    simp only [List.mapM_nil, Option.pure_def, Option.some.injEq] at h
    subst h
    rfl
  | cons a l ih =>
    intro l' h
    rw [List.mapM_cons] at h
    cases hfa : f a with
    | none =>
      rw [hfa] at h
      simp at h
    | some b =>
      rw [hfa] at h
      cases hml : List.mapM f l with
      | none =>
        rw [hml] at h
        simp at h
      | some bs =>
        rw [hml] at h
        have h' : some (b :: bs) = some l' := h
        cases h'
        simp [ih bs hml]

/-- Claim C9: deserialization performs no MAX_STATES bound check: on a fresh
action, any document whose key attributes all parse yields exactly its state
elements, parsed in document order into key combinations of the same count,
with `num_states` equal to the number of state elements; in particular a
document with more than MAX_STATES states deserializes successfully into a
StateList longer than MAX_STATES. -/
theorem parse_no_bound_check (node : XmlNode) (parsed : List KeyCombination)
    (h : node.mapM (fun st => List.mapM parseKey st) = some parsed) :
    parse_xml freshAction node = some ⟨parsed, node.length⟩ ∧
    parsed.length = node.length ∧
    (MAX_STATES < node.length →
      ∃ r : Action, parse_xml freshAction node = some r ∧ MAX_STATES < r.num_states) := by
  have heq : parse_xml freshAction node = some ⟨parsed, node.length⟩ := by
    rw [parse_xml_eq, h]
    show some (⟨[] ++ parsed, 0 + node.length⟩ : Action) = some ⟨parsed, node.length⟩
    rw [List.nil_append, Nat.zero_add]
  exact ⟨heq, mapM_some_length _ node parsed h,
    fun hgt => ⟨⟨parsed, node.length⟩, heq, hgt⟩⟩

/-- Witness for C9 on a document holding eleven empty state elements — one
more than MAX_STATES. -/
theorem parse_no_bound_check_witness :
    (List.replicate 11 ([] : XmlState)).mapM (fun st => List.mapM parseKey st) =
      some (List.replicate 11 ([] : KeyCombination)) ∧
    MAX_STATES < (List.replicate 11 ([] : XmlState)).length ∧
    parse_xml freshAction (List.replicate 11 ([] : XmlState)) =
      some ⟨List.replicate 11 ([] : KeyCombination),
            (List.replicate 11 ([] : XmlState)).length⟩ ∧
    (∃ r : Action, parse_xml freshAction (List.replicate 11 ([] : XmlState)) = some r ∧
      MAX_STATES < r.num_states) :=
  ⟨by decide, by decide,
    (parse_no_bound_check (List.replicate 11 ([] : XmlState))
      (List.replicate 11 ([] : KeyCombination)) (by decide)).1,
    (parse_no_bound_check (List.replicate 11 ([] : XmlState))
      (List.replicate 11 ([] : KeyCombination)) (by decide)).2.2 (by decide)⟩

/-- Claim C10: deserialization accumulates rather than replaces: calling
`parse_xml` on an action already holding combinations appends the document's
parsed states after them, leaving the pre-existing prefix unchanged and
increasing `num_states` by the number of state elements; the existing list
is never cleared. -/
theorem parse_accumulates (a : Action) (node : XmlNode) (parsed : List KeyCombination)
    (h : node.mapM (fun st => List.mapM parseKey st) = some parsed) :
    parse_xml a node = some ⟨a.chain_states ++ parsed, a.num_states + node.length⟩ := by
  rw [parse_xml_eq, h]
  rfl

/-- Witness for C10: parsing one state element into an action already
holding one combination keeps the old combination first. -/
theorem parse_accumulates_witness :
    ([[⟨"42", "False"⟩]] : XmlNode).mapM (fun st => List.mapM parseKey st) =
      some [[(42, false)]] ∧
    parse_xml ⟨[[(30, false)]], 1⟩ ([[⟨"42", "False"⟩]] : XmlNode) =
      some ⟨[[(30, false)]] ++ [[(42, false)]],
            1 + ([[⟨"42", "False"⟩]] : XmlNode).length⟩ :=
  ⟨by decide,
    parse_accumulates ⟨[[(30, false)]], 1⟩ ([[⟨"42", "False"⟩]] : XmlNode)
      [[(42, false)]] (by decide)⟩

end StateToggle
